import Mathlib

set_option maxRecDepth 8192

deriving instance DecidableEq for Except

/-!
Shallow embedding of the Email-Manager pipeline core:
  - src/models.py           (data model)
  - src/ai/categorizer.py   (EmailCategorizer: categorize_all / draft_replies)
  - src/utils/batch_processor.py (process_in_batches)
  - src/gmail/client.py     (consolidate_into_threads)
  - src/gmail/thread_grouper.py  (ThreadGrouper, see GROUP stage notes)
  - src/pipeline.py         (PipelineRunner state machine)

External collaborators (Gmail API, Anthropic API, Slack, report renderer)
are modelled as oracle parameters: each external call site takes the
call result as input. Timestamps are Nat. Python ints are Int. Python
dicts are insertion-ordered association lists, mirroring dict semantics
(overwrite keeps position, pop removes, values() in insertion order).
Sleeps and wall-clock time are not modelled.
-/

/-- models.py EmailCategory. -/
inductive EmailCategory
  | summaryOnly
  | actionEventually
  | actionImmediately
deriving Repr, DecidableEq

/-- EmailCategory(value) constructor lookup: valid enum values, else none
(Python raises ValueError, modelled at the call site). -/
def catFromString (s : String) : Option EmailCategory :=
  if s = "Summary Only" then some EmailCategory.summaryOnly
  else if s = "Action Eventually" then some EmailCategory.actionEventually
  else if s = "Action Immediately" then some EmailCategory.actionImmediately
  else none

/-- models.py RawEmail (body_html, label_ids omitted: never read by the core). -/
structure RawEmail where
  message_id : String
  thread_id : String
  subject : String
  sender : String
  sender_email : String
  recipient : String
  date : Nat
  snippet : String
  body_plain : Option String := none
  gmail_link : String
deriving Repr, DecidableEq

/-- models.py Categorization. -/
structure Categorization where
  category : EmailCategory
  priority : Int
  summary : String
  reasoning : String
  awaiting_reply : Bool := false
  suggested_reply : Option String := none
deriving Repr, DecidableEq

/-- models.py EmailThread. -/
structure EmailThread where
  thread_id : String
  subject : String
  messages : List RawEmail
  gmail_link : String
  message_count : Nat
  latest_date : Nat
  participants : List String
deriving Repr, DecidableEq

/-- models.py CategorizedThread. -/
structure CategorizedThread where
  thread : EmailThread
  categorization : Categorization
deriving Repr, DecidableEq

/-- models.py DigestGroup. -/
structure DigestGroup where
  group_key : String
  group_label : String
  threads : List CategorizedThread
  highest_priority : Int
deriving Repr, DecidableEq

/-- models.py Digest. -/
structure Digest where
  generated_at : Nat
  total_threads : Nat
  total_messages : Nat
  groups : List DigestGroup
  action_immediately : List CategorizedThread
  action_eventually : List CategorizedThread
  summary_only : List CategorizedThread
deriving Repr, DecidableEq

/-- models.py LambdaResponse. emails_by_category is an ordered key/count list. -/
structure LambdaResponse where
  status : String
  threads_processed : Nat
  emails_processed : Nat
  emails_by_category : List (String × Nat)
  slack_sent : Bool
  report_location : Option String := none
  errors : List String := []
deriving Repr, DecidableEq

/-! ## Batching (categorizer.py: for i in range(0, len(threads), batch_size)) -/

/-- One step list of batches: take bs, then recurse on drop bs. Fuel is the
list length; with 0 < bs the fuel always suffices. -/
def chunksOfAux (bs : Nat) : Nat → List α → List (List α)
  | 0, _ => []
  | _, [] => []
  | fuel + 1, l => l.take bs :: chunksOfAux bs fuel (l.drop bs)

/-- Batches of size bs, mirroring the Python slicing loop. A zero batch size
is a ValueError in Python; modelled as no batches (claims assume 0 < bs). -/
def chunksOf (bs : Nat) (l : List α) : List (List α) :=
  if bs = 0 then [] else chunksOfAux bs l.length l

/-! ## Categorization response model (anthropic tool-use response) -/

/-- One entry of the submit_categorizations tool input. A field is none when
the key is absent from the dict. -/
structure CatItem where
  email_id : Option String := none
  category : Option String := none
  priority : Option Int := none
  summary : Option String := none
  reasoning : Option String := none
deriving Repr, DecidableEq

/-- One response content block; non tool_use blocks are skipped by the parser. -/
structure CatBlock where
  tool_use : Bool
  categorizations : List CatItem
deriving Repr, DecidableEq

abbrev CatResponse := List CatBlock

/-- Python string slicing s[:n]: the first n characters. Defined over the
character list so that it evaluates by structural reduction. -/
def pyTruncate (s : String) (n : Nat) : String := String.mk (s.data.take n)

/-- categorizer.py line 191: priority = max(1, min(10, item.get("priority", 5))). -/
def clampPriority (p : Int) : Int := max 1 (min 10 p)

/-- Python dict {t.thread_id: t for t in threads}: duplicate ids keep the last
thread, so lookup finds the last matching element. -/
def lookupThread (threads : List EmailThread) (id : String) : Option EmailThread :=
  threads.reverse.find? (fun t => t.thread_id == id)

/-- Build the CategorizedThread appended for one response item
(categorizer.py lines 191-199). -/
def mkCategorized (thread : EmailThread) (category : EmailCategory) (item : CatItem) :
    CategorizedThread :=
  { thread := thread
    categorization :=
      { category := category
        priority := clampPriority (item.priority.getD 5)
        summary := pyTruncate (item.summary.getD "No summary provided") 500
        reasoning := pyTruncate (item.reasoning.getD "No reasoning provided") 300 } }

/-- Process one categorization item (categorizer.py lines 176-199).
ok none: unknown id, logged and skipped. The error cases are the uncaught
KeyErrors: item["category"] with the key absent, and item["email_id"] inside
the invalid-category warning with the key absent. -/
def parseCatItem (threads : List EmailThread) (item : CatItem) :
    Except String (Option CategorizedThread) :=
  match lookupThread threads (item.email_id.getD "") with
  | none => Except.ok none
  | some thread =>
    match item.category with
    | none => Except.error "KeyError: category"
    | some catStr =>
      match catFromString catStr, item.email_id with
      | some c, _ => Except.ok (some (mkCategorized thread c item))
      | none, some _ => Except.ok (some (mkCategorized thread EmailCategory.summaryOnly item))
      | none, none => Except.error "KeyError: email_id"

/-- The item loop of _parse_categorization_response; an exception discards
all results of the batch (it propagates to categorize_all). -/
def parseCatItems (threads : List EmailThread) :
    List CatItem → Except String (List CategorizedThread)
  | [] => Except.ok []
  | item :: rest =>
    match parseCatItem threads item with
    | Except.error e => Except.error e
    | Except.ok none => parseCatItems threads rest
    | Except.ok (some ct) =>
      match parseCatItems threads rest with
      | Except.error e => Except.error e
      | Except.ok others => Except.ok (ct :: others)

/-- _parse_categorization_response (categorizer.py lines 165-201): iterate
tool_use blocks and their categorizations lists in order. -/
def parseCategorizationResponse (resp : CatResponse) (threads : List EmailThread) :
    Except String (List CategorizedThread) :=
  parseCatItems threads ((resp.filter (fun b => b.tool_use)).flatMap (fun b => b.categorizations))

/-- categorize_batch (categorizer.py lines 134-163): empty batch short-circuits
before the API call; an API error or parse error propagates. The API call
outcome is the oracle argument res. -/
def categorizeBatch (res : Except String CatResponse) (threads : List EmailThread) :
    Except String (List CategorizedThread) :=
  if threads.isEmpty then Except.ok []
  else
    match res with
    | Except.error e => Except.error e
    | Except.ok resp => parseCategorizationResponse resp threads

/-- The placeholder Categorization built when a whole batch fails
(categorizer.py lines 223-228). -/
def placeholderCategorization (e : String) : Categorization :=
  { category := EmailCategory.summaryOnly
    priority := 5
    summary := "[Categorization failed - please review manually]"
    reasoning := "AI categorization error: " ++ pyTruncate e 200 }

/-- The batch loop of categorize_all: batch i uses the result of service
call number i (the code makes exactly one API call per batch). -/
def categorizeGo (call : Nat → Except String CatResponse) :
    Nat → List (List EmailThread) → List CategorizedThread
  | _, [] => []
  | i, b :: rest =>
    (match categorizeBatch (call i) b with
     | Except.ok rs => rs
     | Except.error e => b.map (fun t => { thread := t, categorization := placeholderCategorization e }))
    ++ categorizeGo call (i + 1) rest

/-- categorize_all (categorizer.py lines 203-232). -/
def categorizeAll (bs : Nat) (call : Nat → Except String CatResponse)
    (threads : List EmailThread) : List CategorizedThread :=
  categorizeGo call 0 (chunksOf bs threads)

/-! ## Draft replies (categorizer.py lines 236-355) -/

/-- One entry of the submit_drafts tool input; none means key absent. -/
structure DraftItem where
  thread_id : Option String := none
  awaiting_reply : Option Bool := none
  suggested_reply : Option String := none
deriving Repr, DecidableEq

/-- One draft response content block. -/
structure DraftBlock where
  tool_use : Bool
  drafts : List DraftItem
deriving Repr, DecidableEq

abbrev DraftResponse := List DraftBlock

/-- Python dict insert: overwriting an existing key keeps its position. -/
def dictInsert (k : String) (v : CategorizedThread) :
    List (String × CategorizedThread) → List (String × CategorizedThread)
  | [] => [(k, v)]
  | (k', v') :: rest =>
    if k' == k then (k', v) :: rest else (k', v') :: dictInsert k v rest

/-- thread_map = {ct.thread.thread_id: ct for ct in threads}. -/
def buildThreadMap (cts : List CategorizedThread) : List (String × CategorizedThread) :=
  cts.foldl (fun m ct => dictInsert ct.thread.thread_id ct m) []

/-- thread_map.pop(key, None): remove the entry and return its value. -/
def dictPop (k : String) :
    List (String × CategorizedThread) →
    Option CategorizedThread × List (String × CategorizedThread)
  | [] => (none, [])
  | (k', v) :: rest =>
    if k' == k then (some v, rest)
    else ((dictPop k rest).1, (k', v) :: (dictPop k rest).2)

/-- Apply one draft item to its thread (categorizer.py lines 334-348):
awaiting defaults to false; the suggested reply is forced to none when
awaiting is false; model_copy keeps all other Categorization fields. -/
def applyDraftItem (ct : CategorizedThread) (item : DraftItem) : CategorizedThread :=
  { thread := ct.thread
    categorization :=
      { ct.categorization with
        awaiting_reply := item.awaiting_reply.getD false
        suggested_reply :=
          if item.awaiting_reply.getD false then item.suggested_reply else none } }

/-- The item loop of _parse_draft_response: matched items pop their thread
from the map and append the updated thread; unknown ids are skipped. Returns
the updated list and the remaining map. -/
def parseDraftItems :
    List DraftItem → List (String × CategorizedThread) →
    List CategorizedThread × List (String × CategorizedThread)
  | [], m => ([], m)
  | item :: rest, m =>
    match (dictPop (item.thread_id.getD "") m).1 with
    | none => parseDraftItems rest (dictPop (item.thread_id.getD "") m).2
    | some ct =>
      (applyDraftItem ct item
         :: (parseDraftItems rest (dictPop (item.thread_id.getD "") m).2).1,
       (parseDraftItems rest (dictPop (item.thread_id.getD "") m).2).2)

/-- _parse_draft_response (categorizer.py lines 316-355): updated threads in
response order, then the unmatched map values in insertion order. -/
def parseDraftResponse (resp : DraftResponse) (threads : List CategorizedThread) :
    List CategorizedThread :=
  (parseDraftItems ((resp.filter (fun b => b.tool_use)).flatMap (fun b => b.drafts))
      (buildThreadMap threads)).1
    ++ (parseDraftItems ((resp.filter (fun b => b.tool_use)).flatMap (fun b => b.drafts))
      (buildThreadMap threads)).2.map (fun p => p.2)

/-- _draft_batch (categorizer.py lines 283-314): API error propagates,
otherwise the response is reconciled. -/
def draftBatch (res : Except String DraftResponse) (threads : List CategorizedThread) :
    Except String (List CategorizedThread) :=
  match res with
  | Except.error e => Except.error e
  | Except.ok resp => Except.ok (parseDraftResponse resp threads)

/-- The batch loop of draft_replies: one API call per batch; a failed batch
is passed through unchanged (categorizer.py lines 267-279). -/
def draftGo (call : Nat → Except String DraftResponse) :
    Nat → List (List CategorizedThread) → List CategorizedThread
  | _, [] => []
  | i, b :: rest =>
    (match draftBatch (call i) b with
     | Except.ok rs => rs
     | Except.error _ => b)
    ++ draftGo call (i + 1) rest

/-- The actionable subset (category above Summary Only). -/
def actionableOf (threads : List CategorizedThread) : List CategorizedThread :=
  threads.filter (fun ct => ct.categorization.category != EmailCategory.summaryOnly)

/-- The Summary Only subset, passed through unchanged. -/
def summaryOnlyOf (threads : List CategorizedThread) : List CategorizedThread :=
  threads.filter (fun ct => ct.categorization.category == EmailCategory.summaryOnly)

/-- draft_replies (categorizer.py lines 236-281): with no actionable threads
the input list is returned as is; otherwise the drafted actionable set is
concatenated with the Summary Only set. -/
def draftReplies (bs : Nat) (call : Nat → Except String DraftResponse)
    (threads : List CategorizedThread) : List CategorizedThread :=
  if (actionableOf threads).isEmpty then threads
  else draftGo call 0 (chunksOf bs (actionableOf threads)) ++ summaryOnlyOf threads

/-! ## Generic batch processor (utils/batch_processor.py, unused by the
categorizer; modelled to compare behaviours). The processor argument takes
the global attempt index so retries are observable; sleeps are not modelled. -/

/-- The attempt loop for one batch: up to remaining+1 attempts, the last
failure is re-raised. Returns the result and the next attempt index. -/
def runAttempts (proc : Nat → List T → Except String (List R)) (b : List T) :
    Nat → Nat → Except String (List R) × Nat
  | idx, 0 =>
    (match proc idx b with
     | Except.ok r => Except.ok r
     | Except.error e => Except.error e, idx + 1)
  | idx, remaining + 1 =>
    match proc idx b with
    | Except.ok r => (Except.ok r, idx + 1)
    | Except.error _ => runAttempts proc b (idx + 1) remaining

/-- The batch loop of process_in_batches. -/
def processGo (proc : Nat → List T → Except String (List R)) (mr : Nat) :
    Nat → List (List T) → Except String (List R)
  | _, [] => Except.ok []
  | idx, b :: rest =>
    match runAttempts proc b idx mr with
    | (Except.error e, _) => Except.error e
    | (Except.ok r, idx') =>
      match processGo proc mr idx' rest with
      | Except.error e => Except.error e
      | Except.ok rs => Except.ok (r ++ rs)

/-- process_in_batches (batch_processor.py lines 13-54), retry_delay sleeps
omitted (delay = retry_delay * (attempt + 1), linearly increasing). -/
def processInBatches (items : List T) (batch_size : Nat)
    (proc : Nat → List T → Except String (List R)) (max_retries : Nat) :
    Except String (List R) :=
  processGo proc max_retries 0 (chunksOf batch_size items)

/-! ## Gmail consolidation (client.py consolidate_into_threads, lines 142-173).
Python list.sort is stable; insertionSort with the corresponding relation is
stable with the same result. -/

/-- list(dict.fromkeys(..)): deduplicate keeping first occurrences. -/
def dedupFirstAux (seen : List String) : List String → List String
  | [] => []
  | x :: rest =>
    if seen.contains x then dedupFirstAux seen rest
    else x :: dedupFirstAux (seen ++ [x]) rest

def dedupFirst (l : List String) : List String := dedupFirstAux [] l

/-- defaultdict(list) grouping by thread_id: append to the existing key,
keys in first-appearance order. -/
def multiInsert (k : String) (v : RawEmail) :
    List (String × List RawEmail) → List (String × List RawEmail)
  | [] => [(k, [v])]
  | (k', vs) :: rest =>
    if k' == k then (k', vs ++ [v]) :: rest else (k', vs) :: multiInsert k v rest

def groupByThreadId (emails : List RawEmail) : List (String × List RawEmail) :=
  emails.foldl (fun m e => multiInsert e.thread_id e m) []

/-- Used only for the unreachable head of an empty message group. -/
def defaultRawEmail : RawEmail :=
  { message_id := "", thread_id := "", subject := "", sender := "", sender_email := ""
    recipient := "", date := 0, snippet := "", gmail_link := "" }

/-- Build one EmailThread from a thread_id group (client.py lines 154-170). -/
def mkThread (p : String × List RawEmail) : EmailThread :=
  match p with
  | (tid, msgs0) =>
    let msgs := msgs0.insertionSort (fun a b => a.date ≤ b.date)
    { thread_id := tid
      subject := (msgs.headD defaultRawEmail).subject
      messages := msgs
      gmail_link := "https://mail.google.com/mail/u/0/#inbox/" ++ tid
      message_count := msgs.length
      latest_date := (msgs.getLastD defaultRawEmail).date
      participants := dedupFirst (msgs.map (fun m => m.sender)) }

/-- consolidate_into_threads: group, build, sort by latest date descending
(stable, Python sort with reverse=True). -/
def consolidateIntoThreads (emails : List RawEmail) : List EmailThread :=
  ((groupByThreadId emails).map mkThread).insertionSort
    (fun a b => b.latest_date ≤ a.latest_date)

/-! ## Pipeline state machine (pipeline.py) -/

/-- models.py PipelineState (APPLY_LABELS exists in the enum but is absent
from the runner state order). -/
inductive PipelineState
  | INIT
  | GATHER_EMAILS
  | CATEGORIZE_EMAILS
  | DRAFT_REPLIES
  | APPLY_LABELS
  | GROUP_EMAILS
  | GENERATE_REPORT
  | REPORT
deriving Repr, DecidableEq

/-- The str value of each PipelineState member. -/
def PipelineState.value : PipelineState → String
  | .INIT => "INIT"
  | .GATHER_EMAILS => "GATHER_EMAILS"
  | .CATEGORIZE_EMAILS => "CATEGORIZE_EMAILS"
  | .DRAFT_REPLIES => "DRAFT_REPLIES"
  | .APPLY_LABELS => "APPLY_LABELS"
  | .GROUP_EMAILS => "GROUP_EMAILS"
  | .GENERATE_REPORT => "GENERATE_REPORT"
  | .REPORT => "REPORT"

/-- pipeline.py _STATE_ORDER. -/
def STATE_ORDER : List PipelineState :=
  [PipelineState.INIT, PipelineState.GATHER_EMAILS, PipelineState.CATEGORIZE_EMAILS,
   PipelineState.DRAFT_REPLIES, PipelineState.GROUP_EMAILS,
   PipelineState.GENERATE_REPORT, PipelineState.REPORT]

/-- A raised Python exception: type name and message. -/
structure ExcInfo where
  ename : String
  emsg : String
deriving Repr, DecidableEq

/-- pipeline.py PipelineContext. -/
structure PipelineContext where
  success : Bool := true
  error : Option ExcInfo := none
  failed_state : Option PipelineState := none
  errors : List String := []
  raw_emails : List RawEmail := []
  threads : List EmailThread := []
  categorized_threads : List CategorizedThread := []
  groups : List DigestGroup := []
  digest : Option Digest := none
  report_path : Option String := none
  slack_sent : Bool := false
deriving Repr, DecidableEq

/-- pipeline.py line 110: f"[{state.value}] {type(e).__name__}: {e}". -/
def fmtStageError (s : PipelineState) (e : ExcInfo) : String :=
  "[" ++ s.value ++ "] " ++ e.ename ++ ": " ++ e.emsg

/-- run() loop (pipeline.py lines 88-121) over a state list: REPORT executes
its (non-raising) handler and stops; a raising non-terminal handler records
the failure and jumps to REPORT. Returns the final context and the list of
states whose handler ran, in execution order. -/
def runMachine (handlers : PipelineState → PipelineContext → Except ExcInfo PipelineContext)
    (report : PipelineContext → PipelineContext) :
    List PipelineState → PipelineContext → PipelineContext × List PipelineState
  | [], ctx => (ctx, [])
  | s :: rest, ctx =>
    if s = PipelineState.REPORT then (report ctx, [s])
    else
      match handlers s ctx with
      | Except.ok ctx' =>
        ((runMachine handlers report rest ctx').1,
         s :: (runMachine handlers report rest ctx').2)
      | Except.error e =>
        (report
          { ctx with
            success := false
            error := some e
            failed_state := some s
            errors := ctx.errors ++ [fmtStageError s e] },
         [s, PipelineState.REPORT])

/-- PipelineRunner.run over the fixed state order, from a fresh context. -/
def runPipelineWith
    (handlers : PipelineState → PipelineContext → Except ExcInfo PipelineContext)
    (report : PipelineContext → PipelineContext) :
    PipelineContext × List PipelineState :=
  runMachine handlers report STATE_ORDER {}

/-- _build_response (pipeline.py lines 303-334). -/
def buildResponse (ctx : PipelineContext) : LambdaResponse :=
  let categorized := ctx.categorized_threads
  { status := if ctx.success then "success" else "error"
    threads_processed := categorized.length
    emails_processed := (categorized.map (fun ct => ct.thread.message_count)).sum
    emails_by_category :=
      if categorized.isEmpty then []
      else
        [("Action Immediately",
          categorized.countP (fun t => t.categorization.category == EmailCategory.actionImmediately)),
         ("Action Eventually",
          categorized.countP (fun t => t.categorization.category == EmailCategory.actionEventually)),
         ("Summary Only",
          categorized.countP (fun t => t.categorization.category == EmailCategory.summaryOnly))]
    slack_sent := ctx.slack_sent
    report_location := ctx.report_path
    errors := ctx.errors }

/-! ## Concrete stage handlers (pipeline.py lines 132-301), with external
collaborators supplied as oracle values in an ExternalWorld record. -/

/-- config.py SlackConfig fields read by the core. -/
structure SlackConfigM where
  enabled : Bool
  bot_token : String
  user_id : String
deriving Repr, DecidableEq

/-- Outcomes of all external calls made during one run. -/
structure ExternalWorld where
  slack : SlackConfigM
  batch_size : Nat
  fetch : Except ExcInfo (List RawEmail)
  catCall : Nat → Except String CatResponse
  draftCall : Nat → Except String DraftResponse
  reportGen : Digest → Except String String
  sendSuccess : Except String Unit
  sendFailure : Except String Unit
  now : Nat

/-- _execute_init: SlackConfig.validate (config.py lines 56-62). -/
def execInit (w : ExternalWorld) (ctx : PipelineContext) :
    Except ExcInfo PipelineContext :=
  if w.slack.enabled && (w.slack.bot_token == "" || w.slack.user_id == "") then
    Except.error
      { ename := "ConfigError"
        emsg := "SLACK_BOT_TOKEN and SLACK_USER_ID are required when Slack is enabled." }
  else Except.ok ctx

/-- _execute_gather (pipeline.py lines 136-152): zero emails returns before
consolidation. -/
def execGather (w : ExternalWorld) (ctx : PipelineContext) :
    Except ExcInfo PipelineContext :=
  match w.fetch with
  | Except.error e => Except.error e
  | Except.ok emails =>
    if emails.isEmpty then Except.ok { ctx with raw_emails := emails }
    else
      Except.ok
        { ctx with
          raw_emails := emails
          threads := consolidateIntoThreads emails }

/-- _execute_categorize (pipeline.py lines 154-163): no-op on empty;
categorize_all never raises. -/
def execCategorize (w : ExternalWorld) (ctx : PipelineContext) :
    Except ExcInfo PipelineContext :=
  if ctx.threads.isEmpty then Except.ok ctx
  else
    Except.ok
      { ctx with
        categorized_threads := categorizeAll w.batch_size w.catCall ctx.threads }

/-- _execute_draft_replies (pipeline.py lines 165-181): no-op on empty. -/
def execDraft (w : ExternalWorld) (ctx : PipelineContext) :
    Except ExcInfo PipelineContext :=
  if ctx.categorized_threads.isEmpty then Except.ok ctx
  else
    Except.ok
      { ctx with
        categorized_threads :=
          draftReplies w.batch_size w.draftCall ctx.categorized_threads }

/-- _execute_group (pipeline.py lines 183-190): on empty input it returns
early; otherwise it evaluates grouper.group_threads, an attribute that
ThreadGrouper does not define (thread_grouper.py defines only group_emails),
so Python raises AttributeError. -/
def execGroup (ctx : PipelineContext) : Except ExcInfo PipelineContext :=
  if ctx.categorized_threads.isEmpty then Except.ok ctx
  else
    Except.error
      { ename := "AttributeError"
        emsg := "ThreadGrouper object has no attribute group_threads" }

/-- Stable sort by priority descending (Python sorted key=priority,
reverse=True). -/
def sortByPriorityDesc (l : List CategorizedThread) : List CategorizedThread :=
  l.insertionSort (fun a b => b.categorization.priority ≤ a.categorization.priority)

/-- _execute_generate_report (pipeline.py lines 192-240): the digest is always
built; the report file is only written when there are categorized threads,
and a write failure is appended to errors without failing the stage. -/
def execGenerateReport (w : ExternalWorld) (ctx : PipelineContext) :
    Except ExcInfo PipelineContext :=
  let categorized := ctx.categorized_threads
  let digest : Digest :=
    { generated_at := w.now
      total_threads := categorized.length
      total_messages := (categorized.map (fun ct => ct.thread.message_count)).sum
      groups := ctx.groups
      action_immediately := sortByPriorityDesc
        (categorized.filter (fun t => t.categorization.category == EmailCategory.actionImmediately))
      action_eventually := sortByPriorityDesc
        (categorized.filter (fun t => t.categorization.category == EmailCategory.actionEventually))
      summary_only := sortByPriorityDesc
        (categorized.filter (fun t => t.categorization.category == EmailCategory.summaryOnly)) }
  let ctx' := { ctx with digest := some digest }
  if categorized.isEmpty then Except.ok ctx'
  else
    match w.reportGen digest with
    | Except.ok path => Except.ok { ctx' with report_path := some path }
    | Except.error e =>
      Except.ok { ctx' with errors := ctx'.errors ++ ["Report generation failed: " ++ e] }

/-- _send_success_notification (pipeline.py lines 259-277): skipped when there
is no digest or it is empty; a delivery failure is appended to errors. -/
def sendSuccessNotification (w : ExternalWorld) (ctx : PipelineContext) : PipelineContext :=
  match ctx.digest with
  | none => ctx
  | some d =>
    if d.total_threads == 0 then ctx
    else
      match w.sendSuccess with
      | Except.ok _ => { ctx with slack_sent := true }
      | Except.error e => { ctx with errors := ctx.errors ++ ["Slack delivery failed: " ++ e] }

/-- _send_failure_notification (pipeline.py lines 279-301): a delivery failure
here is only logged. -/
def sendFailureNotification (w : ExternalWorld) (ctx : PipelineContext) : PipelineContext :=
  if ctx.error.isNone || ctx.failed_state.isNone then ctx
  else
    match w.sendFailure with
    | Except.ok _ => { ctx with slack_sent := true }
    | Except.error _ => ctx

/-- _execute_report (pipeline.py lines 242-257), the terminal handler. -/
def execReport (w : ExternalWorld) (ctx : PipelineContext) : PipelineContext :=
  if !w.slack.enabled then ctx
  else if ctx.success then sendSuccessNotification w ctx
  else sendFailureNotification w ctx

/-- The handler table of PipelineRunner (pipeline.py lines 78-86). REPORT and
APPLY_LABELS entries are never consulted by runMachine on STATE_ORDER. -/
def concreteHandlers (w : ExternalWorld) :
    PipelineState → PipelineContext → Except ExcInfo PipelineContext
  | PipelineState.INIT => execInit w
  | PipelineState.GATHER_EMAILS => execGather w
  | PipelineState.CATEGORIZE_EMAILS => execCategorize w
  | PipelineState.DRAFT_REPLIES => execDraft w
  | PipelineState.GROUP_EMAILS => execGroup
  | PipelineState.GENERATE_REPORT => execGenerateReport w
  | _ => fun ctx => Except.ok ctx

/-- One full PipelineRunner.run() against the given external world. -/
def runEmailPipeline (w : ExternalWorld) : PipelineContext × List PipelineState :=
  runPipelineWith (concreteHandlers w) (execReport w)

/-! ## Concrete fixtures -/

def sampleEmail : RawEmail :=
  { message_id := "m1", thread_id := "t1", subject := "Hello"
    sender := "Alice <alice@example.com>", sender_email := "alice@example.com"
    recipient := "bob@example.com", date := 3, snippet := "hi"
    body_plain := some "hi", gmail_link := "https://mail.google.com/mail/u/0/#inbox/m1" }

def sampleThread : EmailThread :=
  { thread_id := "t1", subject := "Hello", messages := [sampleEmail]
    gmail_link := "https://mail.google.com/mail/u/0/#inbox/t1"
    message_count := 1, latest_date := 3
    participants := ["Alice <alice@example.com>"] }

/-! ## Priority clamping (claim C7) -/

theorem clampPriority_range (p : Int) : 1 ≤ clampPriority p ∧ clampPriority p ≤ 10 := by
  unfold clampPriority
  constructor
  · exact le_max_left 1 (min 10 p)
  · exact max_le (by norm_num) (min_le_left 10 p)

theorem parseCatItem_priority (threads : List EmailThread) (item : CatItem)
    (ct : CategorizedThread) (h : parseCatItem threads item = Except.ok (some ct)) :
    1 ≤ ct.categorization.priority ∧ ct.categorization.priority ≤ 10 := by
  unfold parseCatItem at h
  split at h
  · exact absurd h (by simp)
  · split at h
    · exact absurd h (by simp)
    · split at h
      · obtain rfl : ct = mkCategorized _ _ item := by
          injection h with h1
          injection h1 with h2
          exact h2.symm
        exact clampPriority_range _
      · obtain rfl : ct = mkCategorized _ _ item := by
          injection h with h1
          injection h1 with h2
          exact h2.symm
        exact clampPriority_range _
      · exact absurd h (by simp)

theorem parseCatItems_priority (threads : List EmailThread) :
    ∀ (items : List CatItem) (l : List CategorizedThread),
      parseCatItems threads items = Except.ok l →
      ∀ ct ∈ l, 1 ≤ ct.categorization.priority ∧ ct.categorization.priority ≤ 10 := by
  intro items
  induction items with
  | nil =>
    intro l h ct hct
    simp only [parseCatItems] at h
    injection h with h
    subst h
    simp at hct
  | cons item rest ih =>
    intro l h ct hct
    simp only [parseCatItems] at h
    split at h
    · exact absurd h (by simp)
    · exact ih l h ct hct
    · rename_i ct0 hitem
      split at h
      · exact absurd h (by simp)
      · rename_i others hrest
        injection h with h
        subst h
        rcases List.mem_cons.mp hct with rfl | hmem
        · exact parseCatItem_priority threads item ct hitem
        · exact ih others hrest ct hmem

theorem categorizeBatch_priority (res : Except String CatResponse)
    (b : List EmailThread) (l : List CategorizedThread)
    (h : categorizeBatch res b = Except.ok l) :
    ∀ ct ∈ l, 1 ≤ ct.categorization.priority ∧ ct.categorization.priority ≤ 10 := by
  unfold categorizeBatch at h
  split at h
  · injection h with h
    subst h
    simp
  · split at h
    · exact absurd h (by simp)
    · exact parseCatItems_priority b _ l h

theorem categorizeGo_priority (call : Nat → Except String CatResponse) :
    ∀ (cs : List (List EmailThread)) (i : Nat),
      ∀ ct ∈ categorizeGo call i cs,
        1 ≤ ct.categorization.priority ∧ ct.categorization.priority ≤ 10 := by
  intro cs
  induction cs with
  | nil => intro i ct hct; simp [categorizeGo] at hct
  | cons b rest ih =>
    intro i ct hct
    simp only [categorizeGo] at hct
    rcases List.mem_append.mp hct with hl | hr
    · split at hl
      · rename_i rs hok
        exact categorizeBatch_priority (call i) b rs hok ct hl
      · rcases List.mem_map.mp hl with ⟨t, _, rfl⟩
        refine ⟨?_, ?_⟩ <;> simp [placeholderCategorization]
    · exact ih (i + 1) ct hr

/-- C7: every Classification produced by categorize_all (parsed response
entry, invalid-category fallback, or whole-batch placeholder) has its
priority in the interval [1, 10]. -/
theorem C7_priority_clamped (bs : Nat) (call : Nat → Except String CatResponse)
    (threads : List EmailThread) :
    ∀ ct ∈ categorizeAll bs call threads,
      1 ≤ ct.categorization.priority ∧ ct.categorization.priority ≤ 10 := by
  intro ct hct
  exact categorizeGo_priority call (chunksOf bs threads) 0 ct hct

/-- C7 witness: the theorem applied to a one-thread run whose only batch
call fails, producing the placeholder classification. -/
theorem C7_witness :
    1 ≤ (CategorizedThread.mk sampleThread (placeholderCategorization "x")).categorization.priority ∧
    (CategorizedThread.mk sampleThread (placeholderCategorization "x")).categorization.priority ≤ 10 :=
  C7_priority_clamped 10 (fun _ => Except.error "x") [sampleThread]
    (CategorizedThread.mk sampleThread (placeholderCategorization "x")) (by decide)

/-! ## Claim C1: categorize_all output length -/

/-- A batch call result that succeeds but silently omits the only thread. -/
def c1omittingCall : Nat → Except String CatResponse :=
  fun _ => Except.ok [{ tool_use := true, categorizations := [] }]

/-- C1 counterexample: a successful batch response that omits the only input
conversation yields an empty output, so categorize_all drops the conversation
instead of assigning a placeholder, and output length differs from input
length. -/
theorem C1_counterexample :
    ¬ ((categorizeAll 10 c1omittingCall [sampleThread]).length = [sampleThread].length) := by
  decide

/-- The reconciliation condition under which a batch preserves its count:
either the call (or parse) raised, or the parsed list is exactly as long as
the batch. -/
def batchLenOk (res : Except String (List CategorizedThread)) (b : List EmailThread) : Bool :=
  match res with
  | Except.ok l => l.length == b.length
  | Except.error _ => true

theorem chunksOfAux_nil (bs : Nat) : ∀ fuel, chunksOfAux bs fuel ([] : List α) = [] := by
  intro fuel
  cases fuel <;> simp [chunksOfAux]

theorem chunksOfAux_length_sum (bs : Nat) (hbs : 0 < bs) :
    ∀ (fuel : Nat) (l : List α), l.length ≤ fuel →
      ((chunksOfAux bs fuel l).map List.length).sum = l.length := by
  intro fuel
  induction fuel with
  | zero =>
    intro l hl
    have : l = [] := List.length_eq_zero.mp (Nat.le_zero.mp hl)
    subst this
    simp [chunksOfAux]
  | succ n ih =>
    intro l hl
    cases l with
    | nil => simp [chunksOfAux]
    | cons x xs =>
      have hdrop : ((x :: xs).drop bs).length ≤ n := by
        simp only [List.length_drop, List.length_cons]
        simp only [List.length_cons] at hl
        omega
      simp only [chunksOfAux, List.map_cons, List.sum_cons]
      rw [ih _ hdrop]
      simp only [List.length_take, List.length_drop]
      omega

theorem chunksOf_length_sum (bs : Nat) (hbs : 0 < bs) (l : List α) :
    ((chunksOf bs l).map List.length).sum = l.length := by
  unfold chunksOf
  rw [if_neg (Nat.pos_iff_ne_zero.mp hbs)]
  exact chunksOfAux_length_sum bs hbs l.length l (le_refl _)

theorem categorizeGo_length (call : Nat → Except String CatResponse) :
    ∀ (cs : List (List EmailThread)) (j : Nat),
      (∀ i, (hi : i < cs.length) →
        batchLenOk (categorizeBatch (call (j + i)) (cs.get ⟨i, hi⟩)) (cs.get ⟨i, hi⟩) = true) →
      (categorizeGo call j cs).length = (cs.map List.length).sum := by
  intro cs
  induction cs with
  | nil => intro j _; simp [categorizeGo]
  | cons b rest ih =>
    intro j h
    have h0 := h 0 (by simp)
    simp only [List.get] at h0
    have hrest : ∀ i, (hi : i < rest.length) →
        batchLenOk (categorizeBatch (call (j + 1 + i)) (rest.get ⟨i, hi⟩)) (rest.get ⟨i, hi⟩) = true := by
      intro i hi
      have := h (i + 1) (by simpa using Nat.succ_lt_succ hi)
      rw [show j + 1 + i = j + (i + 1) by omega]
      simpa [List.get] using this
    simp only [categorizeGo, List.length_append, List.map_cons, List.sum_cons,
      ih (j + 1) hrest]
    congr 1
    rw [Nat.add_zero] at h0
    unfold batchLenOk at h0
    split at h0
    · exact beq_iff_eq.mp h0
    · simp

/-- C1 amended: output length equals input length provided every batch whose
call and parse succeed reconciles to exactly one classification per input
conversation (in particular whenever every batch call fails). A conversation
silently omitted from a successful response is dropped, not given a
placeholder, and a duplicated response id is emitted twice, so the
unconditional statement fails (see the counterexample). -/
theorem C1_amended (bs : Nat) (call : Nat → Except String CatResponse)
    (threads : List EmailThread) (hbs : 0 < bs)
    (h : ∀ i, (hi : i < (chunksOf bs threads).length) →
      batchLenOk (categorizeBatch (call i) ((chunksOf bs threads).get ⟨i, hi⟩))
        ((chunksOf bs threads).get ⟨i, hi⟩) = true) :
    (categorizeAll bs call threads).length = threads.length := by
  unfold categorizeAll
  rw [categorizeGo_length call (chunksOf bs threads) 0 (by simpa using h)]
  exact chunksOf_length_sum bs hbs threads

/-- A batch call result that answers the only thread exactly once. -/
def c1coveringCall : Nat → Except String CatResponse :=
  fun _ => Except.ok
    [{ tool_use := true
       categorizations :=
         [{ email_id := some "t1", category := some "Action Eventually"
            priority := some 3, summary := some "s", reasoning := some "r" }] }]

/-- C1 witness: the amended theorem applied to a one-thread input whose batch
response covers the input exactly. -/
theorem C1_witness :
    (categorizeAll 10 c1coveringCall [sampleThread]).length = [sampleThread].length :=
  C1_amended 10 c1coveringCall [sampleThread] (by norm_num) (by decide)

/-! ## Claim C3: no delegation to the generic batch processor -/

/-- A good response for the single sample thread. -/
def c3goodResponse : CatResponse :=
  [{ tool_use := true
     categorizations :=
       [{ email_id := some "t1", category := some "Action Immediately"
          priority := some 7, summary := some "s", reasoning := some "r" }] }]

/-- A call stream that fails on the first attempt and succeeds on the second. -/
def c3retryCall : Nat → Except String CatResponse :=
  fun i => if i = 0 then Except.error "transient network error" else Except.ok c3goodResponse

/-- C3 counterexample: on a call stream whose first attempt fails and whose
second succeeds, categorize_all emits the failure placeholder (it never makes
a second attempt), while routing the same batches through process_in_batches
with the source default retry budget (max_retries = 2) recovers the real
classification. categorize_all therefore does not delegate to the generic
batch processor. -/
theorem C3_counterexample :
    categorizeAll 10 c3retryCall [sampleThread]
      = [CategorizedThread.mk sampleThread (placeholderCategorization "transient network error")] ∧
    processInBatches [sampleThread] 10 (fun i b => categorizeBatch (c3retryCall i) b) 2
      = Except.ok [CategorizedThread.mk sampleThread
          { category := EmailCategory.actionImmediately, priority := 7
            summary := "s", reasoning := "r" }] ∧
    (placeholderCategorization "transient network error").priority = 5 := by
  refine ⟨by decide, by decide, by decide⟩

theorem categorizeGo_congr (call call' : Nat → Except String CatResponse) :
    ∀ (cs : List (List EmailThread)) (j : Nat),
      (∀ i, i < cs.length → call (j + i) = call' (j + i)) →
      categorizeGo call j cs = categorizeGo call' j cs := by
  intro cs
  induction cs with
  | nil => intro j _; simp [categorizeGo]
  | cons b rest ih =>
    intro j h
    have h0 := h 0 (by simp)
    rw [Nat.add_zero] at h0
    have hrest : ∀ i, i < rest.length → call (j + 1 + i) = call' (j + 1 + i) := by
      intro i hi
      rw [show j + 1 + i = j + (i + 1) by omega]
      exact h (i + 1) (by simpa using Nat.succ_lt_succ hi)
    simp only [categorizeGo, h0, ih (j + 1) hrest]

theorem draftGo_congr (call call' : Nat → Except String DraftResponse) :
    ∀ (cs : List (List CategorizedThread)) (j : Nat),
      (∀ i, i < cs.length → call (j + i) = call' (j + i)) →
      draftGo call j cs = draftGo call' j cs := by
  intro cs
  induction cs with
  | nil => intro j _; simp [draftGo]
  | cons b rest ih =>
    intro j h
    have h0 := h 0 (by simp)
    rw [Nat.add_zero] at h0
    have hrest : ∀ i, i < rest.length → call (j + 1 + i) = call' (j + 1 + i) := by
      intro i hi
      rw [show j + 1 + i = j + (i + 1) by omega]
      exact h (i + 1) (by simpa using Nat.succ_lt_succ hi)
    simp only [draftGo, h0, ih (j + 1) hrest]

theorem runAttempts_retry_ok (proc : Nat → List T → Except String (List R)) (b : List T) :
    ∀ (k mr idx : Nat) (r : List R), k ≤ mr →
      (∀ j, j < k → ∃ e, proc (idx + j) b = Except.error e) →
      proc (idx + k) b = Except.ok r →
      runAttempts proc b idx mr = (Except.ok r, idx + k + 1) := by
  intro k
  induction k with
  | zero =>
    intro mr idx r _ _ hk
    rw [Nat.add_zero] at hk
    cases mr <;> simp [runAttempts, hk]
  | succ n ih =>
    intro mr idx r hle hfail hk
    obtain ⟨mr', rfl⟩ : ∃ mr', mr = mr' + 1 := by
      cases mr
      · omega
      · exact ⟨_, rfl⟩
    obtain ⟨e, he⟩ := hfail 0 (by omega)
    rw [Nat.add_zero] at he
    have hfail' : ∀ j, j < n → ∃ e, proc (idx + 1 + j) b = Except.error e := by
      intro j hj
      rw [show idx + 1 + j = idx + (j + 1) by omega]
      exact hfail (j + 1) (by omega)
    have hk' : proc (idx + 1 + n) b = Except.ok r := by
      rw [show idx + 1 + n = idx + (n + 1) by omega]
      exact hk
    have := ih mr' (idx + 1) r (by omega) hfail' hk'
    simp only [runAttempts, he, this]
    congr 1
    omega

theorem chunksOf_single (bs : Nat) (l : List α) (hbs : 0 < bs) (hne : l ≠ [])
    (hlen : l.length ≤ bs) : chunksOf bs l = [l] := by
  unfold chunksOf
  rw [if_neg (Nat.pos_iff_ne_zero.mp hbs)]
  cases l with
  | nil => exact absurd rfl hne
  | cons x xs =>
    simp only [List.length_cons, chunksOfAux]
    rw [List.take_of_length_le (by simpa using hlen),
      List.drop_eq_nil_of_le (by simpa using hlen), chunksOfAux_nil]

/-- C3 amended: neither categorize_all nor draft_replies delegates to the
generic batch processor or consults a rate limiter. Each batches inline and
makes exactly one service call per batch: the output depends only on the
first numBatches call outcomes, one per batch, so a failed batch is never
retried. The generic batch processor (process_in_batches) does retry a batch
whose first attempts fail within its retry budget, but it is not referenced
by the categorizer, and no rate limiter is constructed anywhere in the
call path. -/
theorem C3_amended :
    (∀ (bs : Nat) (call call' : Nat → Except String CatResponse)
       (threads : List EmailThread),
       (∀ i, i < (chunksOf bs threads).length → call i = call' i) →
       categorizeAll bs call threads = categorizeAll bs call' threads) ∧
    (∀ (bs : Nat) (call call' : Nat → Except String DraftResponse)
       (threads : List CategorizedThread),
       (∀ i, i < (chunksOf bs (actionableOf threads)).length → call i = call' i) →
       draftReplies bs call threads = draftReplies bs call' threads) ∧
    (∀ (proc : Nat → List EmailThread → Except String (List CategorizedThread))
       (items : List EmailThread) (bs mr k : Nat) (r : List CategorizedThread),
       0 < bs → items ≠ [] → items.length ≤ bs → k ≤ mr →
       (∀ j, j < k → ∃ e, proc j items = Except.error e) →
       proc k items = Except.ok r →
       processInBatches items bs proc mr = Except.ok r) := by
  refine ⟨?_, ?_, ?_⟩
  · intro bs call call' threads h
    unfold categorizeAll
    exact categorizeGo_congr call call' (chunksOf bs threads) 0 (by simpa using h)
  · intro bs call call' threads h
    unfold draftReplies
    split
    · rfl
    · rw [draftGo_congr call call' (chunksOf bs (actionableOf threads)) 0 (by simpa using h)]
  · intro proc items bs mr k r hbs hne hlen hk hfail hok
    unfold processInBatches
    rw [chunksOf_single bs items hbs hne hlen]
    have := runAttempts_retry_ok proc items k mr 0 r hk (by simpa using hfail) (by simpa using hok)
    simp [processGo, this]

/-- C3 witness: the retry clause of the amended theorem applied to the
concrete retrying call stream: the batch processor recovers the second
attempt result. -/
theorem C3_witness :
    processInBatches [sampleThread] 10 (fun i b => categorizeBatch (c3retryCall i) b) 2
      = Except.ok [CategorizedThread.mk sampleThread
          { category := EmailCategory.actionImmediately, priority := 7
            summary := "s", reasoning := "r" }] := by
  refine C3_amended.2.2 (fun i b => categorizeBatch (c3retryCall i) b) [sampleThread]
    10 2 1 _ (by norm_num) (by simp) (by simp) (by norm_num) ?_ (by decide)
  intro j hj
  interval_cases j
  exact ⟨"transient network error", by decide⟩

/-! ## Dictionary lemmas for the draft reconciliation -/

theorem mem_dictInsert (k : String) (v : CategorizedThread) :
    ∀ (m : List (String × CategorizedThread)) (x : String × CategorizedThread),
      x ∈ dictInsert k v m → x = (k, v) ∨ x ∈ m := by
  intro m
  induction m with
  | nil => intro x hx; simpa [dictInsert] using hx
  | cons p rest ih =>
    intro x hx
    obtain ⟨k', v'⟩ := p
    simp only [dictInsert] at hx
    split at hx
    · rename_i hbeq
      rcases List.mem_cons.mp hx with rfl | hx
      · left
        rw [show k' = k from beq_iff_eq.mp hbeq]
      · right
        exact List.mem_cons_of_mem _ hx
    · rcases List.mem_cons.mp hx with rfl | hx
      · right
        exact List.mem_cons_self _ _
      · rcases ih x hx with h | h
        · exact Or.inl h
        · exact Or.inr (List.mem_cons_of_mem _ h)

theorem mem_foldl_dictInsert :
    ∀ (cts : List CategorizedThread) (m : List (String × CategorizedThread))
      (x : String × CategorizedThread),
      x ∈ cts.foldl (fun m ct => dictInsert ct.thread.thread_id ct m) m →
      (∃ ct ∈ cts, x = (ct.thread.thread_id, ct)) ∨ x ∈ m := by
  intro cts
  induction cts with
  | nil => intro m x hx; exact Or.inr hx
  | cons c rest ih =>
    intro m x hx
    simp only [List.foldl_cons] at hx
    rcases ih _ x hx with ⟨ct, hct, rfl⟩ | hx
    · exact Or.inl ⟨ct, List.mem_cons_of_mem _ hct, rfl⟩
    · rcases mem_dictInsert _ _ _ _ hx with rfl | hx
      · exact Or.inl ⟨c, List.mem_cons_self _ _, rfl⟩
      · exact Or.inr hx

theorem mem_buildThreadMap (cts : List CategorizedThread) (x : String × CategorizedThread)
    (hx : x ∈ buildThreadMap cts) : x.2 ∈ cts := by
  unfold buildThreadMap at hx
  rcases mem_foldl_dictInsert cts [] x hx with ⟨ct, hct, rfl⟩ | hx
  · exact hct
  · simp at hx

theorem dictPop_none_eq (k : String) :
    ∀ (m : List (String × CategorizedThread)),
      (dictPop k m).1 = none → (dictPop k m).2 = m := by
  intro m
  induction m with
  | nil => intro _; simp [dictPop]
  | cons p rest ih =>
    intro h
    obtain ⟨k', v⟩ := p
    by_cases hbeq : (k' == k) = true
    · simp [dictPop, hbeq] at h
    · simp only [dictPop] at h ⊢
      rw [if_neg hbeq] at h ⊢
      simp only at h
      simp only [List.cons.injEq, true_and]
      exact ih h

theorem dictPop_some_length (k : String) :
    ∀ (m : List (String × CategorizedThread)) (v : CategorizedThread),
      (dictPop k m).1 = some v → (dictPop k m).2.length + 1 = m.length := by
  intro m
  induction m with
  | nil => intro v h; simp [dictPop] at h
  | cons p rest ih =>
    intro v h
    obtain ⟨k', v'⟩ := p
    by_cases hbeq : (k' == k) = true
    · simp only [dictPop] at h ⊢
      rw [if_pos hbeq]
      simp
    · simp only [dictPop] at h ⊢
      rw [if_neg hbeq] at h ⊢
      simp only at h
      simp only [List.length_cons]
      have := ih v h
      omega

theorem dictPop_some_mem (k : String) :
    ∀ (m : List (String × CategorizedThread)) (v : CategorizedThread),
      (dictPop k m).1 = some v → ∃ k2, (k2, v) ∈ m := by
  intro m
  induction m with
  | nil => intro v h; simp [dictPop] at h
  | cons p rest ih =>
    intro v h
    obtain ⟨k', v'⟩ := p
    by_cases hbeq : (k' == k) = true
    · simp only [dictPop] at h
      rw [if_pos hbeq] at h
      simp only at h
      injection h with h
      subst h
      exact ⟨k', List.mem_cons_self _ _⟩
    · simp only [dictPop] at h
      rw [if_neg hbeq] at h
      simp only at h
      obtain ⟨k2, hmem⟩ := ih v h
      exact ⟨k2, List.mem_cons_of_mem _ hmem⟩

theorem dictPop_rest_mem (k : String) :
    ∀ (m : List (String × CategorizedThread)) (x : String × CategorizedThread),
      x ∈ (dictPop k m).2 → x ∈ m := by
  intro m
  induction m with
  | nil => intro x hx; simp [dictPop] at hx
  | cons p rest ih =>
    intro x hx
    obtain ⟨k', v⟩ := p
    by_cases hbeq : (k' == k) = true
    · simp only [dictPop] at hx
      rw [if_pos hbeq] at hx
      simp only at hx
      exact List.mem_cons_of_mem _ hx
    · simp only [dictPop] at hx
      rw [if_neg hbeq] at hx
      simp only at hx
      rcases List.mem_cons.mp hx with rfl | hx
      · exact List.mem_cons_self _ _
      · exact List.mem_cons_of_mem _ (ih x hx)

/-! ## Draft reconciliation lemmas -/

theorem parseDraftItems_fst_mem :
    ∀ (items : List DraftItem) (m : List (String × CategorizedThread))
      (ct : CategorizedThread), ct ∈ (parseDraftItems items m).1 →
      ∃ item ct0, ct = applyDraftItem ct0 item ∧ ∃ k, (k, ct0) ∈ m := by
  intro items
  induction items with
  | nil => intro m ct hct; simp [parseDraftItems] at hct
  | cons item rest ih =>
    intro m ct hct
    simp only [parseDraftItems] at hct
    cases hpop : (dictPop (item.thread_id.getD "") m).1 with
    | none =>
      rw [hpop] at hct
      simp only at hct
      obtain ⟨it, ct0, heq, k, hmem⟩ := ih _ ct hct
      exact ⟨it, ct0, heq, k, dictPop_rest_mem _ m _ hmem⟩
    | some ct1 =>
      rw [hpop] at hct
      simp only at hct
      rcases List.mem_cons.mp hct with rfl | hct
      · exact ⟨item, ct1, rfl, dictPop_some_mem _ m ct1 hpop⟩
      · obtain ⟨it, ct0, heq, k, hmem⟩ := ih _ ct hct
        exact ⟨it, ct0, heq, k, dictPop_rest_mem _ m _ hmem⟩

theorem parseDraftItems_snd_mem :
    ∀ (items : List DraftItem) (m : List (String × CategorizedThread))
      (x : String × CategorizedThread), x ∈ (parseDraftItems items m).2 → x ∈ m := by
  intro items
  induction items with
  | nil => intro m x hx; simpa [parseDraftItems] using hx
  | cons item rest ih =>
    intro m x hx
    simp only [parseDraftItems] at hx
    cases hpop : (dictPop (item.thread_id.getD "") m).1 with
    | none =>
      rw [hpop] at hx
      simp only at hx
      exact dictPop_rest_mem _ m _ (ih _ x hx)
    | some ct1 =>
      rw [hpop] at hx
      simp only at hx
      exact dictPop_rest_mem _ m _ (ih _ x hx)

theorem parseDraftItems_length :
    ∀ (items : List DraftItem) (m : List (String × CategorizedThread)),
      (parseDraftItems items m).1.length + (parseDraftItems items m).2.length = m.length := by
  intro items
  induction items with
  | nil => intro m; simp [parseDraftItems]
  | cons item rest ih =>
    intro m
    simp only [parseDraftItems]
    cases hpop : (dictPop (item.thread_id.getD "") m).1 with
    | none =>
      simp only
      rw [ih _]
      rw [dictPop_none_eq _ m hpop]
    | some ct1 =>
      simp only [List.length_cons]
      have h1 := ih (dictPop (item.thread_id.getD "") m).2
      have h2 := dictPop_some_length _ m ct1 hpop
      omega

/-- Membership in the reconciled output of _parse_draft_response: every
element is either an updated input thread or an input thread passed through
unchanged. -/
theorem mem_parseDraftResponse (resp : DraftResponse) (threads : List CategorizedThread)
    (ct : CategorizedThread) (hct : ct ∈ parseDraftResponse resp threads) :
    (∃ ct0 ∈ threads, ∃ item, ct = applyDraftItem ct0 item) ∨ ct ∈ threads := by
  unfold parseDraftResponse at hct
  rcases List.mem_append.mp hct with hu | hr
  · obtain ⟨item, ct0, heq, k, hmem⟩ := parseDraftItems_fst_mem _ _ ct hu
    exact Or.inl ⟨ct0, mem_buildThreadMap threads (k, ct0) hmem, item, heq⟩
  · rcases List.mem_map.mp hr with ⟨⟨k, v⟩, hmem, rfl⟩
    have := parseDraftItems_snd_mem _ _ _ hmem
    exact Or.inr (mem_buildThreadMap threads (k, v) this)

theorem mem_chunksOfAux_sublist (bs : Nat) :
    ∀ (fuel : Nat) (l b : List α), b ∈ chunksOfAux bs fuel l → b.Sublist l := by
  intro fuel
  induction fuel with
  | zero => intro l b hb; simp [chunksOfAux] at hb
  | succ n ih =>
    intro l b hb
    cases l with
    | nil => simp [chunksOfAux] at hb
    | cons x xs =>
      simp only [chunksOfAux] at hb
      rcases List.mem_cons.mp hb with rfl | hb
      · exact List.take_sublist bs _
      · exact (ih _ b hb).trans (List.drop_sublist bs _)

theorem mem_chunksOf_sublist (bs : Nat) (l b : List α) (hb : b ∈ chunksOf bs l) :
    b.Sublist l := by
  unfold chunksOf at hb
  split at hb
  · simp at hb
  · exact mem_chunksOfAux_sublist bs l.length l b hb

/-- Membership in the drafted batches: updated or passed-through input. -/
theorem mem_draftGo (call : Nat → Except String DraftResponse) :
    ∀ (cs : List (List CategorizedThread)) (i : Nat) (ct : CategorizedThread),
      ct ∈ draftGo call i cs →
      ∃ b ∈ cs, (∃ ct0 ∈ b, ∃ item, ct = applyDraftItem ct0 item) ∨ ct ∈ b := by
  intro cs
  induction cs with
  | nil => intro i ct hct; simp [draftGo] at hct
  | cons b rest ih =>
    intro i ct hct
    simp only [draftGo] at hct
    rcases List.mem_append.mp hct with hl | hr
    · refine ⟨b, List.mem_cons_self _ _, ?_⟩
      split at hl
      · rename_i rs hok
        unfold draftBatch at hok
        split at hok
        · exact absurd hok (by simp)
        · rename_i resp heq
          injection hok with hok
          subst hok
          exact mem_parseDraftResponse resp b ct hl
      · exact Or.inr hl
    · obtain ⟨b', hb', hres⟩ := ih (i + 1) ct hr
      exact ⟨b', List.mem_cons_of_mem _ hb', hres⟩

/-- Master membership lemma for draft_replies: every output element is an
input element, possibly with only its draft fields updated. -/
theorem mem_draftReplies (bs : Nat) (call : Nat → Except String DraftResponse)
    (threads : List CategorizedThread) (ct : CategorizedThread)
    (hct : ct ∈ draftReplies bs call threads) :
    (∃ ct0 ∈ threads, ∃ item, ct = applyDraftItem ct0 item) ∨ ct ∈ threads := by
  unfold draftReplies at hct
  split at hct
  · exact Or.inr hct
  · rcases List.mem_append.mp hct with hl | hr
    · obtain ⟨b, hb, hres⟩ := mem_draftGo call _ 0 ct hl
      have hsub : b.Sublist (actionableOf threads) := mem_chunksOf_sublist bs _ b hb
      rcases hres with ⟨ct0, hct0, item, heq⟩ | hmem
      · have : ct0 ∈ actionableOf threads := hsub.mem hct0
        exact Or.inl ⟨ct0, List.mem_of_mem_filter this, item, heq⟩
      · have : ct ∈ actionableOf threads := hsub.mem hmem
        exact Or.inr (List.mem_of_mem_filter this)
    · exact Or.inr (List.mem_of_mem_filter hr)

/-! ## Claims C10, C8, C5 -/

theorem applyDraftItem_frame (ct0 : CategorizedThread) (item : DraftItem) :
    (applyDraftItem ct0 item).thread = ct0.thread ∧
    (applyDraftItem ct0 item).categorization.category = ct0.categorization.category ∧
    (applyDraftItem ct0 item).categorization.priority = ct0.categorization.priority ∧
    (applyDraftItem ct0 item).categorization.summary = ct0.categorization.summary ∧
    (applyDraftItem ct0 item).categorization.reasoning = ct0.categorization.reasoning := by
  simp [applyDraftItem]

/-- C10: every element of the draft_replies output agrees with some input
element on the underlying thread and on the category, priority, summary and
reasoning fields; only awaiting_reply and suggested_reply can differ. -/
theorem C10_draft_frame (bs : Nat) (call : Nat → Except String DraftResponse)
    (threads : List CategorizedThread) :
    ∀ ct ∈ draftReplies bs call threads, ∃ ct0 ∈ threads,
      ct.thread = ct0.thread ∧
      ct.categorization.category = ct0.categorization.category ∧
      ct.categorization.priority = ct0.categorization.priority ∧
      ct.categorization.summary = ct0.categorization.summary ∧
      ct.categorization.reasoning = ct0.categorization.reasoning := by
  intro ct hct
  rcases mem_draftReplies bs call threads ct hct with ⟨ct0, hct0, item, rfl⟩ | hmem
  · exact ⟨ct0, hct0, applyDraftItem_frame ct0 item⟩
  · exact ⟨ct, hmem, rfl, rfl, rfl, rfl, rfl⟩

/-- An actionable categorized fixture used by the draft claims. -/
def actionableCt : CategorizedThread :=
  { thread := sampleThread
    categorization :=
      { category := EmailCategory.actionEventually, priority := 8
        summary := "needs action", reasoning := "deadline" } }

/-- A draft response that marks the sample thread as awaiting a reply. -/
def draftAwaitCall : Nat → Except String DraftResponse :=
  fun _ => Except.ok
    [{ tool_use := true
       drafts := [{ thread_id := some "t1", awaiting_reply := some true
                    suggested_reply := some "Will do" }] }]

/-- C10 witness: the theorem applied to a drafted element whose awaiting and
reply fields were changed by the response. -/
theorem C10_witness :
    ∃ ct0 ∈ [actionableCt],
      (applyDraftItem actionableCt
        { thread_id := some "t1", awaiting_reply := some true
          suggested_reply := some "Will do" }).thread = ct0.thread ∧
      (applyDraftItem actionableCt
        { thread_id := some "t1", awaiting_reply := some true
          suggested_reply := some "Will do" }).categorization.category
        = ct0.categorization.category ∧
      (applyDraftItem actionableCt
        { thread_id := some "t1", awaiting_reply := some true
          suggested_reply := some "Will do" }).categorization.priority
        = ct0.categorization.priority ∧
      (applyDraftItem actionableCt
        { thread_id := some "t1", awaiting_reply := some true
          suggested_reply := some "Will do" }).categorization.summary
        = ct0.categorization.summary ∧
      (applyDraftItem actionableCt
        { thread_id := some "t1", awaiting_reply := some true
          suggested_reply := some "Will do" }).categorization.reasoning
        = ct0.categorization.reasoning :=
  C10_draft_frame 10 draftAwaitCall [actionableCt]
    (applyDraftItem actionableCt
      { thread_id := some "t1", awaiting_reply := some true
        suggested_reply := some "Will do" }) (by decide)

/-- The draft-reply invariant: a null reply whenever not awaiting. -/
def replyInvariant (ct : CategorizedThread) : Prop :=
  ct.categorization.awaiting_reply = false → ct.categorization.suggested_reply = none

theorem applyDraftItem_invariant (ct0 : CategorizedThread) (item : DraftItem) :
    replyInvariant (applyDraftItem ct0 item) := by
  unfold replyInvariant applyDraftItem
  intro h
  simp only at h ⊢
  rw [h]
  simp

/-- C8: after draft_replies, suggested_reply is non-null only when
awaiting_reply is true, for every output element, regardless of the service
response, provided every input element satisfies the invariant (as every
categorize_all output does: both parsed and placeholder classifications carry
awaiting_reply = false and suggested_reply = none). -/
theorem C8_reply_null_when_not_awaiting (bs : Nat)
    (call : Nat → Except String DraftResponse) (threads : List CategorizedThread)
    (h : ∀ ct ∈ threads, replyInvariant ct) :
    ∀ ct ∈ draftReplies bs call threads, replyInvariant ct := by
  intro ct hct
  rcases mem_draftReplies bs call threads ct hct with ⟨ct0, _, item, rfl⟩ | hmem
  · exact applyDraftItem_invariant ct0 item
  · exact h ct hmem

/-- C8 witness: the theorem applied to the drafted singleton input. -/
theorem C8_witness :
    replyInvariant (applyDraftItem actionableCt
      { thread_id := some "t1", awaiting_reply := some true
        suggested_reply := some "Will do" }) :=
  C8_reply_null_when_not_awaiting 10 draftAwaitCall [actionableCt]
    (by intro ct hct; simp only [List.mem_singleton] at hct; subst hct
        intro h; simp [actionableCt] at h ⊢)
    (applyDraftItem actionableCt
      { thread_id := some "t1", awaiting_reply := some true
        suggested_reply := some "Will do" }) (by decide)

theorem dictInsert_keys_of_notmem (k : String) (v : CategorizedThread) :
    ∀ (m : List (String × CategorizedThread)), k ∉ m.map Prod.fst →
      (dictInsert k v m).map Prod.fst = m.map Prod.fst ++ [k] := by
  intro m
  induction m with
  | nil => intro _; simp [dictInsert]
  | cons p rest ih =>
    intro hk
    obtain ⟨k', v'⟩ := p
    simp only [List.map_cons, List.mem_cons] at hk
    push_neg at hk
    have hbeq : (k' == k) = false := by
      rw [beq_eq_false_iff_ne]
      exact fun h => hk.1 h.symm
    simp only [dictInsert, hbeq]
    simp only [Bool.false_eq_true, if_false, List.map_cons, List.cons_append,
      List.cons.injEq, true_and]
    exact ih hk.2

theorem dictInsert_length_of_notmem (k : String) (v : CategorizedThread) :
    ∀ (m : List (String × CategorizedThread)), k ∉ m.map Prod.fst →
      (dictInsert k v m).length = m.length + 1 := by
  intro m
  induction m with
  | nil => intro _; simp [dictInsert]
  | cons p rest ih =>
    intro hk
    obtain ⟨k', v'⟩ := p
    simp only [List.map_cons, List.mem_cons] at hk
    push_neg at hk
    have hbeq : (k' == k) = false := by
      rw [beq_eq_false_iff_ne]
      exact fun h => hk.1 h.symm
    simp only [dictInsert, hbeq, Bool.false_eq_true, if_false, List.length_cons]
    rw [ih hk.2]

theorem foldl_dictInsert_length :
    ∀ (cts : List CategorizedThread) (m : List (String × CategorizedThread)),
      (cts.map (fun ct => ct.thread.thread_id)).Nodup →
      (∀ ct ∈ cts, ct.thread.thread_id ∉ m.map Prod.fst) →
      (cts.foldl (fun m ct => dictInsert ct.thread.thread_id ct m) m).length
        = m.length + cts.length := by
  intro cts
  induction cts with
  | nil => intro m _ _; simp
  | cons c rest ih =>
    intro m hnd hnew
    simp only [List.map_cons, List.nodup_cons] at hnd
    simp only [List.foldl_cons]
    have hc : c.thread.thread_id ∉ m.map Prod.fst := hnew c (List.mem_cons_self _ _)
    have hkeys := dictInsert_keys_of_notmem c.thread.thread_id c m hc
    have hrest : ∀ ct ∈ rest, ct.thread.thread_id ∉
        (dictInsert c.thread.thread_id c m).map Prod.fst := by
      intro ct hct
      rw [hkeys]
      simp only [List.mem_append, List.mem_singleton]
      push_neg
      refine ⟨hnew ct (List.mem_cons_of_mem _ hct), ?_⟩
      intro heq
      exact hnd.1 (heq ▸ List.mem_map_of_mem (fun ct => ct.thread.thread_id) hct)
    rw [ih _ hnd.2 hrest, dictInsert_length_of_notmem c.thread.thread_id c m hc]
    simp only [List.length_cons]
    omega

theorem buildThreadMap_length (cts : List CategorizedThread)
    (hnd : (cts.map (fun ct => ct.thread.thread_id)).Nodup) :
    (buildThreadMap cts).length = cts.length := by
  unfold buildThreadMap
  have := foldl_dictInsert_length cts [] hnd (by intro ct _; simp)
  simpa using this

theorem parseDraftResponse_length (resp : DraftResponse) (threads : List CategorizedThread) :
    (parseDraftResponse resp threads).length = (buildThreadMap threads).length := by
  unfold parseDraftResponse
  simp only [List.length_append, List.length_map]
  exact parseDraftItems_length
    ((resp.filter (fun b => b.tool_use)).flatMap (fun b => b.drafts))
    (buildThreadMap threads)

theorem draftGo_length (call : Nat → Except String DraftResponse) :
    ∀ (cs : List (List CategorizedThread)) (i : Nat),
      (∀ b ∈ cs, ((b.map (fun ct => ct.thread.thread_id)).Nodup)) →
      (draftGo call i cs).length = (cs.map List.length).sum := by
  intro cs
  induction cs with
  | nil => intro i _; simp [draftGo]
  | cons b rest ih =>
    intro i hnd
    simp only [draftGo, List.length_append, List.map_cons, List.sum_cons]
    rw [ih (i + 1) (fun b' hb' => hnd b' (List.mem_cons_of_mem _ hb'))]
    congr 1
    split
    · rename_i rs hok
      unfold draftBatch at hok
      split at hok
      · exact absurd hok (by simp)
      · rename_i resp heq
        injection hok with hok
        subst hok
        rw [parseDraftResponse_length resp b,
          buildThreadMap_length b (hnd b (List.mem_cons_self _ _))]
    · rfl

theorem actionable_summary_partition_length (l : List CategorizedThread) :
    (actionableOf l).length + (summaryOnlyOf l).length = l.length := by
  unfold actionableOf summaryOnlyOf
  induction l with
  | nil => simp
  | cons c rest ih =>
    cases hc : c.categorization.category == EmailCategory.summaryOnly
    · simp only [List.filter_cons, bne, hc, Bool.not_false, if_true, List.length_cons]
      rw [if_neg (by simp)]
      simp only [bne] at ih
      omega
    · simp only [List.filter_cons, bne, hc, Bool.not_true, if_true, List.length_cons]
      rw [if_neg (by simp)]
      simp only [bne] at ih
      omega

theorem actionable_ids_nodup (threads : List CategorizedThread)
    (h : (threads.map (fun ct => ct.thread.thread_id)).Nodup) :
    ((actionableOf threads).map (fun ct => ct.thread.thread_id)).Nodup := by
  have hsub : (actionableOf threads).Sublist threads := List.filter_sublist threads
  exact (hsub.map (fun ct => ct.thread.thread_id)).nodup h

/-- C5 amended: draft_replies preserves the total count (given pairwise
distinct thread ids, which the pipeline guarantees since threads are built
by grouping on thread_id), and every Summary Only conversation passes
through unchanged; but the output order is the drafted actionable set
followed by the Summary Only set, so relative input order is not preserved
in general (see the counterexample). -/
theorem C5_amended (bs : Nat) (call : Nat → Except String DraftResponse)
    (threads : List CategorizedThread) (hbs : 0 < bs)
    (hnd : (threads.map (fun ct => ct.thread.thread_id)).Nodup) :
    (draftReplies bs call threads).length = threads.length ∧
    (∀ ct ∈ threads, ct.categorization.category = EmailCategory.summaryOnly →
      ct ∈ draftReplies bs call threads) := by
  constructor
  · unfold draftReplies
    split
    · rfl
    · have hndact := actionable_ids_nodup threads hnd
      have hchunks : ∀ b ∈ chunksOf bs (actionableOf threads),
          ((b.map (fun ct => ct.thread.thread_id)).Nodup) := by
        intro b hb
        have hsub := mem_chunksOf_sublist bs _ b hb
        exact ((hsub.map (fun ct => ct.thread.thread_id)).nodup) hndact
      rw [List.length_append, draftGo_length call _ 0 hchunks,
        chunksOf_length_sum bs hbs (actionableOf threads)]
      exact actionable_summary_partition_length threads
  · intro ct hct hcat
    unfold draftReplies
    split
    · exact hct
    · refine List.mem_append.mpr (Or.inr ?_)
      unfold summaryOnlyOf
      exact List.mem_filter.mpr ⟨hct, by rw [hcat]; exact beq_self_eq_true _⟩

/-- A second fixture thread, distinct id. -/
def sampleThread2 : EmailThread :=
  { thread_id := "t2", subject := "Weekly news", messages := []
    gmail_link := "https://mail.google.com/mail/u/0/#inbox/t2"
    message_count := 1, latest_date := 5, participants := ["News <news@list.com>"] }

/-- A Summary Only categorized fixture. -/
def summaryCt : CategorizedThread :=
  { thread := sampleThread2
    categorization :=
      { category := EmailCategory.summaryOnly, priority := 2
        summary := "fyi", reasoning := "newsletter" } }

/-- A draft response answering the actionable thread with awaiting false. -/
def c5draftCall : Nat → Except String DraftResponse :=
  fun _ => Except.ok
    [{ tool_use := true
       drafts := [{ thread_id := some "t1", awaiting_reply := some false }] }]

/-- C5 counterexample: with the Summary Only conversation first in the input,
draft_replies returns the drafted actionable set first and the Summary Only
set last, so the output order differs from the input order. -/
theorem C5_counterexample :
    ¬ ((draftReplies 10 c5draftCall [summaryCt, actionableCt]).map
        (fun ct => ct.thread.thread_id)
      = ([summaryCt, actionableCt]).map (fun ct => ct.thread.thread_id)) := by
  decide

/-- C5 witness: the amended count preservation at the concrete mixed input. -/
theorem C5_witness :
    (draftReplies 10 c5draftCall [summaryCt, actionableCt]).length
      = [summaryCt, actionableCt].length :=
  (C5_amended 10 c5draftCall [summaryCt, actionableCt] (by norm_num) (by decide)).1

/-! ## Claim C2: the runner state machine -/

theorem runMachine_report (handlers : PipelineState → PipelineContext → Except ExcInfo PipelineContext)
    (report : PipelineContext → PipelineContext) (rest : List PipelineState)
    (ctx : PipelineContext) :
    runMachine handlers report (PipelineState.REPORT :: rest) ctx
      = (report ctx, [PipelineState.REPORT]) := by
  simp [runMachine]

theorem runMachine_cons_ok (handlers : PipelineState → PipelineContext → Except ExcInfo PipelineContext)
    (report : PipelineContext → PipelineContext) (s : PipelineState)
    (rest : List PipelineState) (ctx ctx1 : PipelineContext)
    (hs : s ≠ PipelineState.REPORT) (hh : handlers s ctx = Except.ok ctx1) :
    runMachine handlers report (s :: rest) ctx
      = ((runMachine handlers report rest ctx1).1,
         s :: (runMachine handlers report rest ctx1).2) := by
  simp only [runMachine, if_neg hs, hh]

theorem runMachine_cons_error (handlers : PipelineState → PipelineContext → Except ExcInfo PipelineContext)
    (report : PipelineContext → PipelineContext) (s : PipelineState)
    (rest : List PipelineState) (ctx : PipelineContext) (e : ExcInfo)
    (hs : s ≠ PipelineState.REPORT) (hh : handlers s ctx = Except.error e) :
    runMachine handlers report (s :: rest) ctx
      = (report
          { ctx with
            success := false
            error := some e
            failed_state := some s
            errors := ctx.errors ++ [fmtStageError s e] },
         [s, PipelineState.REPORT]) := by
  simp only [runMachine, if_neg hs, hh]

/-- Handlers that preserve the success flag and failing-state record on
normal return, as every source stage handler does (they only write data
fields of the context). -/
def preservesFlags
    (handlers : PipelineState → PipelineContext → Except ExcInfo PipelineContext) : Prop :=
  ∀ s ctx ctx', handlers s ctx = Except.ok ctx' →
    ctx'.success = ctx.success ∧ ctx'.failed_state = ctx.failed_state

/-- The terminal REPORT handler preserves the success flag and failure
record and never removes recorded errors, as _execute_report does. -/
def reportPreserves (report : PipelineContext → PipelineContext) : Prop :=
  ∀ ctx, (report ctx).success = ctx.success ∧
    (report ctx).failed_state = ctx.failed_state ∧
    ∀ x ∈ ctx.errors, x ∈ (report ctx).errors

theorem runMachine_spec
    (handlers : PipelineState → PipelineContext → Except ExcInfo PipelineContext)
    (report : PipelineContext → PipelineContext)
    (hpres : preservesFlags handlers) (hrep : reportPreserves report) :
    ∀ (states : List PipelineState) (ctx : PipelineContext),
      states.Nodup → PipelineState.REPORT ∉ states.dropLast →
      states.getLast? = some PipelineState.REPORT →
      ctx.success = true → ctx.failed_state = none →
      ((runMachine handlers report states ctx).2.getLast? = some PipelineState.REPORT ∧
       (((runMachine handlers report states ctx).1.success = true ∧
         (runMachine handlers report states ctx).2 = states) ∨
        ((runMachine handlers report states ctx).1.success = false ∧
         ∃ s e, s ∈ states ∧ s ≠ PipelineState.REPORT ∧
           (runMachine handlers report states ctx).1.failed_state = some s ∧
           fmtStageError s e ∈ (runMachine handlers report states ctx).1.errors ∧
           (runMachine handlers report states ctx).2
             = states.takeWhile (fun x => x != s) ++ [s, PipelineState.REPORT]))) := by
  intro states
  induction states with
  | nil => intro ctx _ _ h3 _ _; simp at h3
  | cons s rest ih =>
    intro ctx h1 h2 h3 h4 h5
    by_cases hs : s = PipelineState.REPORT
    · subst hs
      cases rest with
      | nil =>
        rw [runMachine_report]
        refine ⟨by simp, Or.inl ⟨?_, rfl⟩⟩
        rw [(hrep ctx).1, h4]
      | cons r rs =>
        exfalso
        apply h2
        simp [List.dropLast]
    · obtain ⟨r, rs, rfl⟩ : ∃ r rs, rest = r :: rs := by
        cases rest with
        | nil =>
          exfalso
          apply hs
          simpa using h3
        | cons r rs => exact ⟨r, rs, rfl⟩
      have hlast : (r :: rs).getLast? = some PipelineState.REPORT := by
        rw [List.getLast?_cons_cons] at h3
        exact h3
      cases hh : handlers s ctx with
      | error e =>
        rw [runMachine_cons_error handlers report s (r :: rs) ctx e hs hh]
        refine ⟨by simp, Or.inr ⟨?_, s, e, List.mem_cons_self _ _, hs, ?_, ?_, ?_⟩⟩
        · rw [(hrep _).1]
        · rw [(hrep _).2.1]
        · refine (hrep _).2.2 _ ?_
          simp
        · rw [List.takeWhile_cons]
          simp
      | ok ctx1 =>
        rw [runMachine_cons_ok handlers report s (r :: rs) ctx ctx1 hs hh]
        have hp := hpres s ctx ctx1 hh
        have hnd : (r :: rs).Nodup := (List.nodup_cons.mp h1).2
        have hsmem : PipelineState.REPORT ∉ (r :: rs).dropLast := by
          intro hmem
          apply h2
          simp only [List.dropLast]
          exact List.mem_cons_of_mem _ hmem
        have hih := ih ctx1 hnd hsmem hlast (by rw [hp.1, h4]) (by rw [hp.2, h5])
        obtain ⟨hihlast, hihdisj⟩ := hih
        obtain ⟨t, ts, htr⟩ : ∃ t ts,
            (runMachine handlers report (r :: rs) ctx1).2 = t :: ts := by
          cases hcase : (runMachine handlers report (r :: rs) ctx1).2 with
          | nil => rw [hcase] at hihlast; simp at hihlast
          | cons t ts => exact ⟨t, ts, rfl⟩
        constructor
        · rw [htr] at hihlast ⊢
          simp only
          rw [List.getLast?_cons_cons]
          exact hihlast
        · rcases hihdisj with ⟨hsucc, htrace⟩ | ⟨hsucc, s', e, hmem, hne, hfs, herr, htrace⟩
          · exact Or.inl ⟨hsucc, by simp only; rw [htrace]⟩
          · refine Or.inr ⟨hsucc, s', e, List.mem_cons_of_mem _ hmem, hne, hfs, herr, ?_⟩
            have hssne : s ≠ s' := by
              intro heq
              exact (List.nodup_cons.mp h1).1 (heq ▸ hmem)
            simp only
            rw [htrace]
            conv_rhs => rw [List.takeWhile_cons]
            rw [if_pos (bne_iff_ne.mpr hssne)]
            simp

/-- C2: run() always executes REPORT last and returns a result record; with
no handler exception the trace is the full state order and the status is
"success"; when a non-terminal handler raises, the runner records
success = false, the failing state and a formatted error string, skips the
remaining intermediate states (the trace is the prefix before the failing
state, the failing state, then REPORT) and the status is "error". -/
theorem C2_runner_terminal_report
    (handlers : PipelineState → PipelineContext → Except ExcInfo PipelineContext)
    (report : PipelineContext → PipelineContext)
    (hpres : preservesFlags handlers) (hrep : reportPreserves report) :
    ((runPipelineWith handlers report).2.getLast? = some PipelineState.REPORT) ∧
    (((buildResponse (runPipelineWith handlers report).1).status = "success" ∧
      (runPipelineWith handlers report).1.success = true ∧
      (runPipelineWith handlers report).2 = STATE_ORDER) ∨
     ((buildResponse (runPipelineWith handlers report).1).status = "error" ∧
      (runPipelineWith handlers report).1.success = false ∧
      ∃ s e, s ∈ STATE_ORDER ∧ s ≠ PipelineState.REPORT ∧
        (runPipelineWith handlers report).1.failed_state = some s ∧
        fmtStageError s e ∈ (runPipelineWith handlers report).1.errors ∧
        (runPipelineWith handlers report).2
          = STATE_ORDER.takeWhile (fun x => x != s) ++ [s, PipelineState.REPORT])) := by
  have h := runMachine_spec handlers report hpres hrep STATE_ORDER {}
    (by decide) (by decide) (by decide) rfl rfl
  obtain ⟨hlast, hdisj⟩ := h
  refine ⟨hlast, ?_⟩
  rcases hdisj with ⟨hsucc, htrace⟩ | ⟨hsucc, s, e, hmem, hne, hfs, herr, htrace⟩
  · refine Or.inl ⟨?_, hsucc, htrace⟩
    simp only [buildResponse, runPipelineWith] at hsucc ⊢
    rw [if_pos hsucc]
  · refine Or.inr ⟨?_, hsucc, s, e, hmem, hne, hfs, herr, htrace⟩
    simp only [buildResponse, runPipelineWith] at hsucc ⊢
    rw [if_neg (by simp [hsucc])]

/-- C2 witness: the theorem applied to handlers that never raise and an
identity report handler. -/
theorem C2_witness :
    (runPipelineWith (fun _ ctx => Except.ok ctx) id).2.getLast?
      = some PipelineState.REPORT :=
  (C2_runner_terminal_report (fun _ ctx => Except.ok ctx) id
    (by intro s ctx ctx' h; injection h with h; subst h; exact ⟨rfl, rfl⟩)
    (by intro ctx; exact ⟨rfl, rfl, fun x hx => hx⟩)).1

/-! ## Claim C4: the GROUP stage -/

/-- A run whose external calls all succeed: one fetched email, a full
categorization response, an empty draft response. -/
def c4world : ExternalWorld :=
  { slack := { enabled := true, bot_token := "xoxb", user_id := "U1" }
    batch_size := 10
    fetch := Except.ok [sampleEmail]
    catCall := fun _ => Except.ok
      [{ tool_use := true
         categorizations :=
           [{ email_id := some "t1", category := some "Action Immediately"
              priority := some 9, summary := some "urgent", reasoning := some "asap" }] }]
    draftCall := fun _ => Except.ok [{ tool_use := true, drafts := [] }]
    reportGen := fun _ => Except.ok "/tmp/email_digest.md"
    sendSuccess := Except.ok ()
    sendFailure := Except.ok ()
    now := 7 }

/-- C4: the GROUP stage raises on every non-empty categorized input, because
pipeline.py line 189 invokes grouper.group_threads, a method ThreadGrouper
does not define; consequently even a run in which every external call
succeeds fails at GROUP_EMAILS and returns status "error" instead of
producing domain groups. -/
theorem C4_group_stage_broken :
    (∀ ctx : PipelineContext, ctx.categorized_threads ≠ [] →
      execGroup ctx = Except.error
        { ename := "AttributeError"
          emsg := "ThreadGrouper object has no attribute group_threads" }) ∧
    (runEmailPipeline c4world).1.failed_state = some PipelineState.GROUP_EMAILS ∧
    (buildResponse (runEmailPipeline c4world).1).status = "error" ∧
    (runEmailPipeline c4world).1.groups = [] := by
  refine ⟨?_, by decide, by decide, by decide⟩
  intro ctx h
  unfold execGroup
  rw [if_neg (by simpa [List.isEmpty_iff] using h)]

/-- C4 witness: the stage-level clause applied to a one-element context. -/
theorem C4_witness :
    execGroup { categorized_threads := [actionableCt] } = Except.error
      { ename := "AttributeError"
        emsg := "ThreadGrouper object has no attribute group_threads" } :=
  C4_group_stage_broken.1 { categorized_threads := [actionableCt] } (by decide)

/-! ## Claim C6: batch failure degradation -/

theorem categorizeGo_error_chunk (call : Nat → Except String CatResponse) :
    ∀ (cs : List (List EmailThread)) (j i : Nat) (c : List EmailThread) (e : String),
      cs.get? i = some c → call (j + i) = Except.error e →
      ∃ s t, s ++ c.map (fun th => CategorizedThread.mk th (placeholderCategorization e)) ++ t
        = categorizeGo call j cs := by
  intro cs
  induction cs with
  | nil => intro j i c e hg _; simp at hg
  | cons b rest ih =>
    intro j i c e hg hcall
    cases i with
    | zero =>
      injection hg with hg
      subst hg
      rw [Nat.add_zero] at hcall
      refine ⟨[], categorizeGo call (j + 1) rest, ?_⟩
      simp only [List.nil_append, categorizeGo]
      congr 1
      cases b with
      | nil => simp [categorizeBatch, hcall]
      | cons x xs => simp [categorizeBatch, hcall]
    | succ i' =>
      simp only [List.get?_cons_succ] at hg
      obtain ⟨s, t, heq⟩ := ih (j + 1) i' c e hg
        (by rw [show j + 1 + i' = j + (i' + 1) by omega]; exact hcall)
      refine ⟨(match categorizeBatch (call j) b with
        | Except.ok rs => rs
        | Except.error e2 =>
          b.map (fun th => { thread := th, categorization := placeholderCategorization e2 }))
        ++ s, t, ?_⟩
      simp only [categorizeGo, List.append_assoc]
      rw [← heq]
      simp [List.append_assoc]

/-- C6 amended: every conversation in a batch whose call raises receives the
placeholder classification (category Summary Only, priority 5, reasoning
carrying the error text truncated to 200 characters) in the categorize_all
output; the CATEGORIZE stage itself never raises and leaves the success flag
and the error list of the run context unchanged — so the batch failure is
recorded only in logs and in the placeholders, not in the result record
error list, and the stage alone cannot fail the pipeline. (In the current
code a run with a non-empty categorized set subsequently fails at
GROUP_EMAILS for the unrelated reason recorded in C4, so the overall
status is not "success"; see the counterexample.) -/
theorem C6_amended :
    (∀ (bs : Nat) (call : Nat → Except String CatResponse) (threads : List EmailThread)
       (i : Nat) (c : List EmailThread) (e : String),
       (chunksOf bs threads).get? i = some c → call i = Except.error e →
       ∃ s t, s ++ c.map (fun th => CategorizedThread.mk th (placeholderCategorization e)) ++ t
         = categorizeAll bs call threads) ∧
    (∀ e : String,
      (placeholderCategorization e).category = EmailCategory.summaryOnly ∧
      (placeholderCategorization e).priority = 5 ∧
      (placeholderCategorization e).reasoning = "AI categorization error: " ++ pyTruncate e 200 ∧
      (placeholderCategorization e).awaiting_reply = false) ∧
    (∀ (w : ExternalWorld) (ctx : PipelineContext),
      ∃ ctx', execCategorize w ctx = Except.ok ctx' ∧
        ctx'.success = ctx.success ∧ ctx'.errors = ctx.errors) := by
  refine ⟨?_, ?_, ?_⟩
  · intro bs call threads i c e hg hcall
    exact categorizeGo_error_chunk call (chunksOf bs threads) 0 i c e hg (by simpa using hcall)
  · intro e
    exact ⟨rfl, rfl, rfl, rfl⟩
  · intro w ctx
    unfold execCategorize
    split
    · exact ⟨ctx, rfl, rfl, rfl⟩
    · exact ⟨_, rfl, rfl, rfl⟩

/-- The run of C6: a transport error on the only classification batch. -/
def c6world : ExternalWorld :=
  { slack := { enabled := true, bot_token := "xoxb", user_id := "U1" }
    batch_size := 10
    fetch := Except.ok [sampleEmail]
    catCall := fun _ => Except.error "Anthropic API error: connection refused"
    draftCall := fun _ => Except.ok []
    reportGen := fun _ => Except.ok "/tmp/email_digest.md"
    sendSuccess := Except.ok ()
    sendFailure := Except.ok ()
    now := 0 }

/-- C6 counterexample: on the concrete run with a failing classification
batch, every conversation of the batch does get the placeholder, but the
result record status is "error" (the non-empty categorized set then fails at
the broken GROUP stage), and the result record error list contains only the
GROUP failure — no record of the classification batch failure. -/
theorem C6_counterexample :
    (runEmailPipeline c6world).1.categorized_threads
      = [CategorizedThread.mk sampleThread
          (placeholderCategorization "Anthropic API error: connection refused")] ∧
    (buildResponse (runEmailPipeline c6world).1).status = "error" ∧
    (buildResponse (runEmailPipeline c6world).1).errors
      = ["[GROUP_EMAILS] AttributeError: ThreadGrouper object has no attribute group_threads"] := by
  refine ⟨by decide, by decide, by decide⟩

/-- C6 witness: the amended theorem applied to a concrete one-batch failure
and a concrete context. -/
theorem C6_witness :
    (∃ s t, s ++ [sampleThread].map
        (fun th => CategorizedThread.mk th (placeholderCategorization "boom")) ++ t
      = categorizeAll 10 (fun _ => Except.error "boom") [sampleThread]) ∧
    (placeholderCategorization "boom").priority = 5 := by
  constructor
  · exact C6_amended.1 10 (fun _ => Except.error "boom") [sampleThread] 0 [sampleThread]
      "boom" (by decide) rfl
  · exact (C6_amended.2.1 "boom").2.1

/-! ## Claim C9: zero fetched messages -/

/-- The external world of an empty-mailbox run: the fetch returns zero
emails; all other collaborator outcomes are arbitrary (none is consulted on
this path except the Slack enablement flag). -/
def c9world (enabled : Bool) (bot uid : String) (bs : Nat)
    (catCall : Nat → Except String CatResponse)
    (draftCall : Nat → Except String DraftResponse)
    (rg : Digest → Except String String) (ss sf : Except String Unit)
    (now : Nat) : ExternalWorld :=
  { slack := { enabled := enabled, bot_token := bot, user_id := uid }
    batch_size := bs
    fetch := Except.ok []
    catCall := catCall
    draftCall := draftCall
    reportGen := rg
    sendSuccess := ss
    sendFailure := sf
    now := now }

/-- C9: with zero fetched messages (and consistent Slack credentials), the
conversation list stays empty, CATEGORIZE, DRAFT_REPLIES and GROUP no-op,
the digest is built with zero totals, delivery is skipped, the trace is the
full state order ending in REPORT, and the result record has status
"success" with an empty per-category map. -/
theorem C9_empty_mailbox (enabled : Bool) (bot uid : String) (bs : Nat)
    (catCall : Nat → Except String CatResponse)
    (draftCall : Nat → Except String DraftResponse)
    (rg : Digest → Except String String) (ss sf : Except String Unit) (now : Nat)
    (hbot : bot ≠ "") (huid : uid ≠ "") :
    (runEmailPipeline (c9world enabled bot uid bs catCall draftCall rg ss sf now)).1.threads
      = [] ∧
    (runEmailPipeline (c9world enabled bot uid bs catCall draftCall rg ss sf now)).1.categorized_threads
      = [] ∧
    (runEmailPipeline (c9world enabled bot uid bs catCall draftCall rg ss sf now)).1.digest
      = some
        { generated_at := now, total_threads := 0, total_messages := 0, groups := []
          action_immediately := [], action_eventually := [], summary_only := [] } ∧
    (runEmailPipeline (c9world enabled bot uid bs catCall draftCall rg ss sf now)).1.slack_sent
      = false ∧
    (runEmailPipeline (c9world enabled bot uid bs catCall draftCall rg ss sf now)).2
      = STATE_ORDER ∧
    (buildResponse
      (runEmailPipeline (c9world enabled bot uid bs catCall draftCall rg ss sf now)).1).status
      = "success" ∧
    (buildResponse
      (runEmailPipeline (c9world enabled bot uid bs catCall draftCall rg ss sf now)).1).emails_by_category
      = [] := by
  have hb : (bot == "") = false := beq_eq_false_iff_ne.mpr hbot
  have hu : (uid == "") = false := beq_eq_false_iff_ne.mpr huid
  cases enabled with
  | false =>
    exact ⟨rfl, rfl, rfl, rfl, rfl, rfl, rfl⟩
  | true =>
    have h1 : concreteHandlers (c9world true bot uid bs catCall draftCall rg ss sf now)
        PipelineState.INIT {} = Except.ok {} := by
      show execInit _ {} = Except.ok {}
      unfold execInit c9world
      simp [hb, hu]
    unfold runEmailPipeline runPipelineWith
    rw [show STATE_ORDER = PipelineState.INIT
      :: [PipelineState.GATHER_EMAILS, PipelineState.CATEGORIZE_EMAILS,
          PipelineState.DRAFT_REPLIES, PipelineState.GROUP_EMAILS,
          PipelineState.GENERATE_REPORT, PipelineState.REPORT] from rfl]
    rw [runMachine_cons_ok _ _ _ _ _ _ (by decide) h1]
    exact ⟨rfl, rfl, rfl, rfl, rfl, rfl, rfl⟩

/-- C9 witness: the theorem applied to a fully concrete empty-mailbox world. -/
theorem C9_witness :
    (buildResponse (runEmailPipeline (c9world true "xoxb" "U1" 10
      (fun _ => Except.error "unused") (fun _ => Except.error "unused")
      (fun _ => Except.error "unused") (Except.error "unused") (Except.error "unused")
      0)).1).status = "success" :=
  (C9_empty_mailbox true "xoxb" "U1" 10
    (fun _ => Except.error "unused") (fun _ => Except.error "unused")
    (fun _ => Except.error "unused") (Except.error "unused") (Except.error "unused")
    0 (by decide) (by decide)).2.2.2.2.2.1
